import Mathlib

/-!
Verification of the survey-points table engine of `wifi-heatmapper`
(`src/components/PointsTable.tsx`): the row flattener and unit converter,
the initial column-visibility state, and the bulk-action coordinator
(delete selected, toggle-disable selected) together with the selection-key
resolution they share.

Machine numbers are modelled exactly: JavaScript numbers become `ℚ` (all
values occurring here are far below the range where IEEE-754 doubles lose
integrality), `Math.round` becomes `⌊q + 1/2⌋` (round half toward +∞, the
JS semantics on the non-negative domain used here).
-/

set_option autoImplicit false

namespace PointsTable

/-- The nested wireless-link snapshot of a `SurveyPoint` (`point.wifiData`). -/
structure WifiData where
  ssid : String
  bssid : String
  rssi : Int
  channel : Nat
  security : String
  txRate : ℚ
  phyMode : String
  channelWidth : Nat
  frequency : Nat
  deriving DecidableEq

/-- One directional iperf test result; only `bitsPerSecond` is read by the table. -/
structure IperfTest where
  bitsPerSecond : ℚ
  deriving DecidableEq

/-- The nested throughput results of a `SurveyPoint` (`point.iperfResults`). -/
structure IperfResults where
  tcpDownload : IperfTest
  tcpUpload : IperfTest
  udpDownload : IperfTest
  udpUpload : IperfTest
  deriving DecidableEq

/-- A survey point as received by the table component (`SurveyPoint` of `@/lib/types`):
identifier, 2D position, wireless snapshot, throughput results, timestamp, disabled flag. -/
structure SurveyPoint where
  id : String
  x : ℚ
  y : ℚ
  wifiData : WifiData
  iperfResults : IperfResults
  timestamp : String
  isDisabled : Bool
  deriving DecidableEq

/-- One row of the access-point mapping table (`ApMapping` of `@/lib/types`). -/
structure ApMapping where
  macAddress : String
  apName : String
  deriving DecidableEq

/-- `FlattenedSurveyPoint`: the flat display row produced by `flattenedData`
(the runtime object also carries `signalQuality`, added by the flattener). -/
structure FlattenedSurveyPoint where
  id : String
  x : ℚ
  y : ℚ
  ssid : String
  bssid : String
  rssi : Int
  channel : Nat
  security : String
  txRate : ℚ
  phyMode : String
  channelWidth : Nat
  frequency : String
  tcpDownloadMbps : ℚ
  tcpUploadMbps : ℚ
  udpDownloadMbps : ℚ
  udpUploadMbps : ℚ
  signalQuality : ℚ
  timestamp : String
  isDisabled : Bool
  deriving DecidableEq

/-- `Math.round` on the exact-arithmetic model: round half toward +∞. -/
def mathRound (q : ℚ) : ℤ := ⌊q + 1/2⌋

/-- `convertToMbps` (PointsTable.tsx line 215):
`Math.round((bitsPerSecond / 1000000) * 100) / 100`. -/
def convertToMbps (bitsPerSecond : ℚ) : ℚ :=
  (mathRound (bitsPerSecond / 1000000 * 100) : ℚ) / 100

/-- Modelled from the spec (§4.1), for the refinement claim about the converter:
`bitsPerSecondToMbps(v)` returns `round(v / 1_000_000 * 100) / 100`. -/
def bitsPerSecondToMbps (v : ℚ) : ℚ :=
  (mathRound (v / 1000000 * 100) : ℚ) / 100

/-- Access-point label resolution inside `flattenedData` (lines 221-229):
start from the raw `bssid`; when the mapping table is non-empty, look up the
first entry whose `macAddress` equals the raw `bssid` and, when its `apName`
is truthy (a non-empty string), relabel as `"<apName> (<bssid>)"`. -/
def resolveBssid (apMapping : List ApMapping) (bssid : String) : String :=
  if apMapping.length > 0 then
    match apMapping.find? (fun ap => ap.macAddress == bssid) with
    | some ap => if ap.apName = "" then bssid else ap.apName ++ " (" ++ bssid ++ ")"
    | none => bssid
  else bssid

/-- The per-point body of `flattenedData` (lines 220-250). The two imported
collaborators are parameters: `rssiToPercentage` (from `@/lib/utils`) and the
locale timestamp formatter `new Date(·).toLocaleString()`. -/
def flattenPoint (rssiToPercentage : Int → ℚ) (toLocaleString : String → String)
    (apMapping : List ApMapping) (point : SurveyPoint) : FlattenedSurveyPoint :=
  { id := point.id
    x := point.x
    y := point.y
    ssid := point.wifiData.ssid
    bssid := resolveBssid apMapping point.wifiData.bssid
    rssi := point.wifiData.rssi
    channel := point.wifiData.channel
    security := point.wifiData.security
    txRate := point.wifiData.txRate
    phyMode := point.wifiData.phyMode
    channelWidth := point.wifiData.channelWidth
    frequency := toString point.wifiData.frequency ++ " Mhz"
    tcpDownloadMbps := convertToMbps point.iperfResults.tcpDownload.bitsPerSecond
    tcpUploadMbps := convertToMbps point.iperfResults.tcpUpload.bitsPerSecond
    udpDownloadMbps := convertToMbps point.iperfResults.udpDownload.bitsPerSecond
    udpUploadMbps := convertToMbps point.iperfResults.udpUpload.bitsPerSecond
    signalQuality := rssiToPercentage point.wifiData.rssi
    timestamp := toLocaleString point.timestamp
    isDisabled := point.isDisabled }

/-- `flattenedData` (lines 219-251): `data.map(point => ...)`. -/
def flattenedData (rssiToPercentage : Int → ℚ) (toLocaleString : String → String)
    (apMapping : List ApMapping) (data : List SurveyPoint) : List FlattenedSurveyPoint :=
  data.map (flattenPoint rssiToPercentage toLocaleString apMapping)

/-- The column keys defined by the `columns` array (lines 93-213), in source order. -/
def columnKeys : List String :=
  ["select", "id", "disable", "rssi", "signalQuality", "bssid", "frequency",
   "channel", "tcpDownloadMbps", "tcpUploadMbps", "udpDownloadMbps",
   "udpUploadMbps", "timestamp", "ssid", "security", "txRate", "phyMode",
   "channelWidth", "x", "y"]

/-- The initial `columnVisibility` state object (lines 72-91), as the
association list of its keys in source order. -/
def initialColumnVisibility : List (String × Bool) :=
  [("select", true), ("id", true), ("signalQuality", true), ("bssid", true),
   ("frequency", true), ("tcpDownloadMbps", true), ("tcpUploadMbps", true),
   ("timestamp", true), ("disable", true), ("rssi", false), ("ssid", false),
   ("security", false), ("txRate", false), ("phyMode", false),
   ("channelWidth", false), ("channel", false), ("x", false), ("y", false)]

/-- A concrete survey point used to instantiate theorems at concrete inputs. -/
def samplePoint : SurveyPoint :=
  { id := "p1"
    x := 0
    y := 0
    wifiData :=
      { ssid := "net", bssid := "AA:BB", rssi := -50, channel := 6,
        security := "WPA2", txRate := 100, phyMode := "ax",
        channelWidth := 80, frequency := 2412 }
    iperfResults :=
      { tcpDownload := ⟨0⟩, tcpUpload := ⟨0⟩, udpDownload := ⟨0⟩, udpUpload := ⟨0⟩ }
    timestamp := "2024-01-01"
    isDisabled := false }

/-- JavaScript `parseInt` on the selection keys produced by the table (the
tabular engine's positional row ids, canonical decimal strings): parse the
leading run of decimal digits; `none` models `NaN` when there is no digit. -/
def parseIntJS (s : String) : Option Nat :=
  let ds := s.toList.takeWhile Char.isDigit
  if ds.isEmpty then none
  else some (ds.foldl (fun acc c => acc * 10 + (c.toNat - 48)) 0)

/-- `flattenedData[parseInt(index)]`: a fallible array access — `none` models
JavaScript's `undefined` (`NaN` index or out-of-bounds index). -/
def lookupRow (rows : List FlattenedSurveyPoint) (key : String) :
    Option FlattenedSurveyPoint :=
  match parseIntJS key with
  | some n => rows.get? n
  | none => none

/-- Option-valued list map: `some` of the image when every element maps to
`some`, `none` as soon as one entry fails (the corresponding JS `.map` body
would throw a TypeError there). -/
def mapMo {α β : Type} (f : α → Option β) : List α → Option (List β)
  | [] => some []
  | a :: l =>
    match f a, mapMo f l with
    | some b, some bs => some (b :: bs)
    | _, _ => none

/-- One call against an external mutation collaborator of the table. -/
inductive CollabCall where
  | deleteCall (ids : List String)
  | updateCall (id : String) (isDisabled : Bool)
  deriving DecidableEq

/-- `Object.keys(rowSelection).map(index => flattenedData[parseInt(index)].id)`
(lines 272-274 and 279-281), the resolution step shared by both bulk actions. -/
def selectedIds (rows : List FlattenedSurveyPoint) (selection : List String) :
    Option (List String) :=
  mapMo (fun k => (lookupRow rows k).map (fun row => row.id)) selection

/-- `handleDelete` (lines 271-276): resolve the selection to identifiers and
invoke `onDelete` once with the full list. The result is the trace of
collaborator calls; `none` models the TypeError thrown when a selection key
does not resolve to a row. -/
def handleDelete (rows : List FlattenedSurveyPoint) (selection : List String) :
    Option (List CollabCall) :=
  (selectedIds rows selection).map (fun ids => [CollabCall.deleteCall ids])

/-- `toggleDisableSelected` (lines 278-288): resolve the selection to
identifiers, compute `allHidden = selectedIds.every(id =>
flattenedData.find(point => point.id === id)?.isDisabled)` (optional
chaining is falsy when no row matches), then call
`updateDatapoint(id, {isDisabled: !allHidden})` once per selected identifier,
in selection order. `allHidden` is inlined into the per-call target state. -/
def toggleDisableSelected (rows : List FlattenedSurveyPoint)
    (selection : List String) : Option (List CollabCall) :=
  (selectedIds rows selection).map (fun ids =>
    ids.map (fun id =>
      CollabCall.updateCall id
        (!(ids.all (fun i2 =>
          ((rows.find? (fun point => point.id == i2)).map
            (fun point => point.isDisabled)).getD false)))))

/-- The outcome of presenting the confirmation dialog to the user. -/
inductive DialogOutcome where
  | confirmed
  | cancelled
  deriving DecidableEq

/-- Modelled from the spec (§6): the `AlertDialogModal` confirmation gate
(the component's own source is not under `src/`). When its `disabled` prop
is set the dialog is unreachable and nothing runs; otherwise explicit user
confirmation runs `onConfirm` and cancellation runs `onCancel`. -/
def runDialog {α : Type} (disabled : Bool) (onConfirm onCancel noAction : α)
    (outcome : DialogOutcome) : α :=
  if disabled then noAction
  else
    match outcome with
    | DialogOutcome.confirmed => onConfirm
    | DialogOutcome.cancelled => onCancel

/-- The "Delete Selected" wiring (lines 348-362): the modal's `onConfirm` is
`handleDelete`, its `onCancel` is the no-op `() => {}` (an empty trace), and
its `disabled` prop is `Object.keys(rowSelection).length === 0`. -/
def deleteSelectedAction (rows : List FlattenedSurveyPoint)
    (selection : List String) (outcome : DialogOutcome) :
    Option (List CollabCall) :=
  runDialog (selection.length == 0) (handleDelete rows selection) (some [])
    (some []) outcome

/-- The "Toggle Disable Selected" button (lines 363-370): its `disabled`
prop is `Object.keys(rowSelection).length === 0`; an enabled press runs
`toggleDisableSelected`. That a disabled button never fires its handler is
modelled from the spec (§7(b): the action is unreachable when disabled). -/
def pressToggleDisableButton (rows : List FlattenedSurveyPoint)
    (selection : List String) : Option (List CollabCall) :=
  if selection.length == 0 then some []
  else toggleDisableSelected rows selection

/-- A concrete flattened row used to instantiate theorems at concrete inputs. -/
def mkRow (id : String) (isDisabled : Bool) : FlattenedSurveyPoint :=
  { id := id, x := 0, y := 0, ssid := "net", bssid := "AA:BB", rssi := -50,
    channel := 6, security := "WPA2", txRate := 100, phyMode := "ax",
    channelWidth := 80, frequency := "2412 Mhz", tcpDownloadMbps := 0,
    tcpUploadMbps := 0, udpDownloadMbps := 0, udpUploadMbps := 0,
    signalQuality := 50, timestamp := "t", isDisabled := isDisabled }

end PointsTable

namespace PointsTable

/-- `List.find?` returns the element at the first index whose entry satisfies
the predicate: if position `i` satisfies `p` and every earlier position does
not, the scan stops exactly at `i`. -/
theorem find_first_eq {α : Type} (p : α → Bool) :
    ∀ (l : List α) (i : Nat) (hi : i < l.length),
      p (l.get ⟨i, hi⟩) = true →
      (∀ (j : Nat) (hj : j < l.length), j < i → p (l.get ⟨j, hj⟩) = false) →
      l.find? p = some (l.get ⟨i, hi⟩)
  | [], i, hi, _, _ => absurd hi (by simp)
  | a :: l, 0, _, hp, _ => by
      exact List.find?_cons_of_pos l hp
  | a :: l, i + 1, hi, hp, hfirst => by
      have ha : p a = false := hfirst 0 (Nat.succ_pos _) (Nat.succ_pos i)
      rw [List.find?_cons_of_neg l (by simp [ha])]
      exact find_first_eq p l i (Nat.lt_of_succ_lt_succ hi) hp
        (fun j hj hji =>
          hfirst (j + 1) (Nat.succ_lt_succ hj) (Nat.succ_lt_succ hji))

/-- C4: flattening with an empty mapping list preserves length and order
(row `i` is derived from record `i`, witnessed by the identifier lists being
equal as ordered lists), and every row's access-point label is the record's
raw link address. -/
theorem flatten_empty_mapping (rssiToPercentage : Int → ℚ)
    (toLocaleString : String → String) (data : List SurveyPoint) :
    (flattenedData rssiToPercentage toLocaleString [] data).length = data.length ∧
    (flattenedData rssiToPercentage toLocaleString [] data).map
        (fun row => row.id) = data.map (fun point => point.id) ∧
    (flattenedData rssiToPercentage toLocaleString [] data).map
        (fun row => row.bssid) = data.map (fun point => point.wifiData.bssid) := by
  refine ⟨by simp [flattenedData], ?_, ?_⟩ <;>
    simp [flattenedData, flattenPoint, resolveBssid]

/-- C5 counterexample: `udpDownloadMbps` and `udpUploadMbps` are column keys
of the table, yet the initial column-visibility state carries no entry for
them, so not every column key has a boolean entry at initialization. -/
theorem initialColumnVisibility_missing_udp_keys :
    "udpDownloadMbps" ∈ columnKeys ∧ "udpUploadMbps" ∈ columnKeys ∧
    initialColumnVisibility.lookup "udpDownloadMbps" = none ∧
    initialColumnVisibility.lookup "udpUploadMbps" = none := by
  refine ⟨by decide, by decide, by decide, by decide⟩

/-- C5 amended: at initialization the column-visibility state has a boolean
entry for every column key except `udpDownloadMbps` and `udpUploadMbps`; the
fixed default visible subset is {select, id, disable, signalQuality, bssid,
frequency, tcpDownloadMbps, tcpUploadMbps, timestamp} and the keys with an
entry outside it are hidden — all independent of the data (the state is a
constant). -/
theorem initialColumnVisibility_defaults :
    columnKeys.filter
        (fun k => (initialColumnVisibility.lookup k) == none) =
      ["udpDownloadMbps", "udpUploadMbps"] ∧
    columnKeys.filter
        (fun k => (initialColumnVisibility.lookup k) == some true) =
      ["select", "id", "disable", "signalQuality", "bssid", "frequency",
       "tcpDownloadMbps", "tcpUploadMbps", "timestamp"] ∧
    columnKeys.filter
        (fun k => (initialColumnVisibility.lookup k) == some false) =
      ["rssi", "channel", "ssid", "security", "txRate", "phyMode",
       "channelWidth", "x", "y"] := by
  refine ⟨by decide, by decide, by decide⟩

/-- C6: for every finite non-negative `v`, `convertToMbps v` equals the
spec's `round(v / 1_000_000 * 100) / 100`, and (no special-casing anywhere
on the domain) it stays within half a hundredth of the exact value
`v / 1_000_000`. -/
theorem convertToMbps_spec (v : ℚ) (hv : 0 ≤ v) :
    convertToMbps v = bitsPerSecondToMbps v ∧
    |convertToMbps v - v / 1000000| ≤ 1 / 200 := by
  constructor
  · rfl
  · have hx : v / 1000000 = v / 1000000 * 100 / 100 := by ring
    set x : ℚ := v / 1000000 * 100 with hxdef
    have h1 : (⌊x + 1/2⌋ : ℚ) ≤ x + 1/2 := Int.floor_le _
    have h2 : x + 1/2 - 1 < (⌊x + 1/2⌋ : ℚ) := Int.sub_one_lt_floor _
    rw [hx]
    rw [abs_le]
    unfold convertToMbps mathRound
    constructor <;> [skip; skip] <;>
      · rw [← hxdef]
        linarith

/-- C7: the bits-per-second-to-megabits conversion is monotonic
non-decreasing on the non-negative reals (here: rationals). -/
theorem convertToMbps_mono (v1 v2 : ℚ) (h0 : 0 ≤ v1) (h : v1 ≤ v2) :
    convertToMbps v1 ≤ convertToMbps v2 := by
  unfold convertToMbps mathRound
  have harg : v1 / 1000000 * 100 + 1/2 ≤ v2 / 1000000 * 100 + 1/2 := by linarith
  have hfloor : (⌊v1 / 1000000 * 100 + 1/2⌋ : ℤ) ≤ ⌊v2 / 1000000 * 100 + 1/2⌋ :=
    Int.floor_mono harg
  have hcast : ((⌊v1 / 1000000 * 100 + 1/2⌋ : ℤ) : ℚ) ≤
      ((⌊v2 / 1000000 * 100 + 1/2⌋ : ℤ) : ℚ) := by exact_mod_cast hfloor
  linarith

/-- Witness for C6 at `v = 2500000` (2.5 Mbps). -/
theorem convertToMbps_spec_witness :
    (0 : ℚ) ≤ 2500000 ∧
    (convertToMbps 2500000 = bitsPerSecondToMbps 2500000 ∧
      |convertToMbps 2500000 - (2500000 : ℚ) / 1000000| ≤ 1 / 200) :=
  ⟨by norm_num, convertToMbps_spec 2500000 (by norm_num)⟩

/-- Witness for C7 at `v1 = 0`, `v2 = 1000000`. -/
theorem convertToMbps_mono_witness :
    (0 : ℚ) ≤ 0 ∧ (0 : ℚ) ≤ 1000000 ∧
    convertToMbps 0 ≤ convertToMbps 1000000 :=
  ⟨le_refl 0, by norm_num, convertToMbps_mono 0 1000000 (le_refl 0) (by norm_num)⟩

/-- C3 counterexample: with the non-empty mapping `[{macAddress: "AA:BB",
apName: ""}]` and a record whose link address is `"AA:BB"`, the first (and
only) mapping entry matches, yet the flattened row's label is the raw
address `"AA:BB"`, not `"<apName> (<address>)"` (which would be `" (AA:BB)"`). -/
theorem flattenPoint_label_counterexample :
    ([({ macAddress := "AA:BB", apName := "" } : ApMapping)]).length > 0 ∧
    (([({ macAddress := "AA:BB", apName := "" } : ApMapping)]).get
        ⟨0, by decide⟩).macAddress = samplePoint.wifiData.bssid ∧
    (flattenPoint (fun _ => 0) (fun s => s)
        [{ macAddress := "AA:BB", apName := "" }] samplePoint).bssid = "AA:BB" ∧
    (flattenPoint (fun _ => 0) (fun s => s)
        [{ macAddress := "AA:BB", apName := "" }] samplePoint).bssid ≠
      "" ++ " (" ++ "AA:BB" ++ ")" := by
  refine ⟨by decide, by decide, by decide, by decide⟩

/-- C3 amended: for every record and non-empty mapping list, when the first
mapping entry (in mapping-table order) whose address equals the record's link
address has a non-empty `apName`, the flattened row's label is
`"<apName> (<address>)"`; when no entry matches (or, per the counterexample,
the matched `apName` is empty — see the empty-name theorem), the label is the
raw address unchanged. -/
theorem flattenPoint_label (r : Int → ℚ) (t : String → String)
    (apMapping : List ApMapping) (point : SurveyPoint) :
    (∀ (i : Nat) (hi : i < apMapping.length),
      (apMapping.get ⟨i, hi⟩).macAddress = point.wifiData.bssid →
      (∀ (j : Nat) (hj : j < apMapping.length), j < i →
        (apMapping.get ⟨j, hj⟩).macAddress ≠ point.wifiData.bssid) →
      (apMapping.get ⟨i, hi⟩).apName ≠ "" →
      (flattenPoint r t apMapping point).bssid =
        (apMapping.get ⟨i, hi⟩).apName ++ " (" ++ point.wifiData.bssid ++ ")") ∧
    ((∀ ap ∈ apMapping, ap.macAddress ≠ point.wifiData.bssid) →
      (flattenPoint r t apMapping point).bssid = point.wifiData.bssid) := by
  constructor
  · intro i hi hmatch hfirst hname
    have hlen : apMapping.length > 0 := Nat.lt_of_le_of_lt (Nat.zero_le i) hi
    have hfind : apMapping.find?
        (fun ap => ap.macAddress == point.wifiData.bssid) =
        some (apMapping.get ⟨i, hi⟩) := by
      apply find_first_eq
      · exact beq_iff_eq.mpr hmatch
      · intro j hj hji
        exact beq_eq_false_iff_ne.mpr (hfirst j hj hji)
    simp only [flattenPoint, resolveBssid, hlen, if_pos hlen, hfind]
    have hname2 : apMapping[i].apName ≠ "" := hname
    simp [hname2]
  · intro hnone
    have hfind : apMapping.find?
        (fun ap => ap.macAddress == point.wifiData.bssid) = none := by
      rw [List.find?_eq_none]
      intro ap hap
      exact beq_eq_false_iff_ne.mpr (hnone ap hap) ▸ (by simp [beq_eq_false_iff_ne, hnone ap hap])
    by_cases hlen : apMapping.length > 0
    · simp only [flattenPoint, resolveBssid, if_pos hlen, hfind]
    · simp only [flattenPoint, resolveBssid, if_neg hlen]

/-- Witness for the C3 amended theorem: mapping `[{macAddress: "AA:BB",
apName: "Router1"}]` and a record with link address `"AA:BB"` yield the
label `"Router1 (AA:BB)"`. -/
theorem flattenPoint_label_witness :
    (flattenPoint (fun _ => 0) (fun s => s)
        [{ macAddress := "AA:BB", apName := "Router1" }] samplePoint).bssid =
      "Router1 (AA:BB)" := by
  have h := (flattenPoint_label (fun _ => 0) (fun s => s)
      [{ macAddress := "AA:BB", apName := "Router1" }] samplePoint).1 0
      (by decide) (by decide) (fun j hj hji => absurd hji (Nat.not_lt_zero j))
      (by decide)
  rw [h]
  rfl

/-- C10: when the first mapping entry whose address equals the record's link
address has an empty (falsy) `apName`, the flattened row's label falls back
to the raw address — the formatted label is produced only for a non-empty
matched name. -/
theorem flattenPoint_label_empty_name (r : Int → ℚ) (t : String → String)
    (apMapping : List ApMapping) (point : SurveyPoint) (ap : ApMapping)
    (hfind : apMapping.find?
        (fun m => m.macAddress == point.wifiData.bssid) = some ap)
    (hap : ap.apName = "") :
    (flattenPoint r t apMapping point).bssid = point.wifiData.bssid := by
  have hlen : apMapping.length > 0 := by
    cases apMapping with
    | nil => simp [List.find?] at hfind
    | cons a l => exact Nat.succ_pos _
  simp only [flattenPoint, resolveBssid, if_pos hlen, hfind]
  rw [if_pos hap]

/-- Witness for C10: the first matching entry has an empty name (a later
entry has a non-empty one, but the linear scan stops at the first match),
so the label is the raw address. -/
theorem flattenPoint_label_empty_name_witness :
    (flattenPoint (fun _ => 0) (fun s => s)
        [{ macAddress := "AA:BB", apName := "" },
         { macAddress := "AA:BB", apName := "Router1" }] samplePoint).bssid =
      samplePoint.wifiData.bssid :=
  flattenPoint_label_empty_name (fun _ => 0) (fun s => s) _ samplePoint
    { macAddress := "AA:BB", apName := "" } (by decide) rfl

/-- Pointwise congruence on members for `List.all`. -/
theorem all_congr_mem {α : Type} (l : List α) (p q : α → Bool)
    (h : ∀ x ∈ l, p x = q x) : l.all p = l.all q := by
  induction l with
  | nil => rfl
  | cons a l ih =>
    simp only [List.all_cons]
    rw [h a (List.mem_cons_self a l),
      ih (fun x hx => h x (List.mem_cons_of_mem a hx))]

/-- `all` over a mapped list evaluates the predicate on each image. -/
theorem all_map_eq {α β : Type} (l : List α) (f : α → β) (p : β → Bool) :
    (l.map f).all p = l.all (fun x => p (f x)) := by
  induction l with
  | nil => rfl
  | cons a l ih => simp only [List.map_cons, List.all_cons, ih]

/-- When every selection key parses to an in-bounds index (presented as a
list of `Fin`), the shared resolution step maps each key to the projection of
the row at its index. -/
theorem mapMo_lookup_eq {β : Type} (rows : List FlattenedSurveyPoint)
    (g : FlattenedSurveyPoint → β) :
    ∀ (selection : List String) (ns : List (Fin rows.length)),
      selection.map parseIntJS = ns.map (fun n => some n.val) →
      mapMo (fun k => (lookupRow rows k).map g) selection =
        some ((ns.map rows.get).map g)
  | [], ns, h => by
      cases ns with
      | nil => rfl
      | cons n ns' => simp at h
  | k :: ks, ns, h => by
      cases ns with
      | nil => simp at h
      | cons n ns' =>
        simp only [List.map_cons, List.cons.injEq] at h
        have hk : parseIntJS k = some n.val := h.1
        have hrec := mapMo_lookup_eq rows g ks ns' h.2
        have hlook : lookupRow rows k = some (rows.get n) := by
          simp only [lookupRow, hk]
          exact List.get?_eq_get n.isLt
        simp [mapMo, hlook, hrec]

/-- With pairwise-distinct row identifiers, the by-identifier rescan inside
`toggleDisableSelected` recovers exactly the row itself. -/
theorem find_id_self (rows : List FlattenedSurveyPoint)
    (hnd : (rows.map (fun row => row.id)).Nodup) (r : FlattenedSurveyPoint)
    (hr : r ∈ rows) :
    rows.find? (fun point => point.id == r.id) = some r := by
  induction rows with
  | nil => cases hr
  | cons a l ih =>
    rw [List.map_cons, List.nodup_cons] at hnd
    cases List.mem_cons.mp hr with
    | inl h =>
      subst h
      exact List.find?_cons_of_pos l (by simp)
    | inr h =>
      have hne : a.id ≠ r.id := fun he => hnd.1 (he ▸ List.mem_map_of_mem _ h)
      rw [List.find?_cons_of_neg l (by simp [hne])]
      exact ih hnd.2 h

/-- Distinct in-bounds indices into rows with pairwise-distinct identifiers
select rows with pairwise-distinct identifiers. -/
theorem nodup_selected_row_ids (rows : List FlattenedSurveyPoint)
    (hnd : (rows.map (fun row => row.id)).Nodup)
    (ns : List (Fin rows.length)) (hns : ns.Nodup) :
    ((ns.map rows.get).map (fun row => row.id)).Nodup := by
  rw [List.map_map]
  refine hns.map ?_
  intro n1 n2 he
  have hinj := List.nodup_iff_injective_get.mp hnd
  have h1 : (rows.map (fun row => row.id)).get
      ⟨n1.val, by simpa using n1.isLt⟩ =
      (rows.map (fun row => row.id)).get ⟨n2.val, by simpa using n2.isLt⟩ := by
    rw [List.get_map, List.get_map]
    exact he
  have h2 := hinj h1
  have h3 := congrArg Fin.val h2
  exact Fin.ext h3

/-- C1: toggle-disable on a non-empty in-bounds selection over rows with
pairwise-distinct identifiers computes the single target state
`!(every selected row is disabled)` and issues exactly one `updateDatapoint`
call per selected identifier, each carrying that target state (so a mixed or
all-enabled selection becomes uniformly disabled, a uniformly disabled
selection is uniformly re-enabled); the issued identifiers are pairwise
distinct. -/
theorem toggleDisableSelected_spec (rows : List FlattenedSurveyPoint)
    (selection : List String) (ns : List (Fin rows.length))
    (hparse : selection.map parseIntJS = ns.map (fun n => some n.val))
    (hne : selection ≠ [])
    (hnd : (rows.map (fun row => row.id)).Nodup)
    (hdist : ns.Nodup) :
    toggleDisableSelected rows selection =
      some ((ns.map rows.get).map (fun row =>
        CollabCall.updateCall row.id
          (!((ns.map rows.get).all (fun row => row.isDisabled))))) ∧
    ((ns.map rows.get).map (fun row => row.id)).Nodup := by
  have hsel := mapMo_lookup_eq rows (fun row => row.id) selection ns hparse
  refine ⟨?_, nodup_selected_row_ids rows hnd ns hdist⟩
  unfold toggleDisableSelected selectedIds
  rw [hsel]
  have hmem : ∀ row ∈ ns.map rows.get, row ∈ rows := by
    intro row hrow
    rcases List.mem_map.mp hrow with ⟨n, _, rfl⟩
    exact List.get_mem rows n.val n.isLt
  have hall : ((ns.map rows.get).map (fun row => row.id)).all (fun i2 =>
      ((rows.find? (fun point => point.id == i2)).map
        (fun point => point.isDisabled)).getD false) =
      (ns.map rows.get).all (fun row => row.isDisabled) := by
    rw [all_map_eq]
    refine all_congr_mem _ _ _ (fun row hrow => ?_)
    rw [find_id_self rows hnd row (hmem row hrow)]
    rfl
  rw [Option.map_some']
  rw [hall, List.map_map]
  rfl

/-- Witness for C1: a mixed selection {A disabled, B enabled} is uniformly
set disabled; a uniformly disabled selection {A, B} is uniformly re-enabled. -/
theorem toggleDisableSelected_spec_witness :
    toggleDisableSelected [mkRow "A" true, mkRow "B" false] ["0", "1"] =
      some [CollabCall.updateCall "A" true, CollabCall.updateCall "B" true] ∧
    toggleDisableSelected [mkRow "A" true, mkRow "B" true] ["0", "1"] =
      some [CollabCall.updateCall "A" false,
        CollabCall.updateCall "B" false] := by
  constructor
  · have h := (toggleDisableSelected_spec [mkRow "A" true, mkRow "B" false]
        ["0", "1"] [⟨0, by decide⟩, ⟨1, by decide⟩] (by decide) (by decide)
        (by decide) (by decide)).1
    rw [h]
    rfl
  · have h := (toggleDisableSelected_spec [mkRow "A" true, mkRow "B" true]
        ["0", "1"] [⟨0, by decide⟩, ⟨1, by decide⟩] (by decide) (by decide)
        (by decide) (by decide)).1
    rw [h]
    rfl

/-- C2: on a non-empty in-bounds selection, confirming the delete dialog
invokes `onDelete` exactly once, with the full identifier list resolved from
the current flattened row order; cancelling produces no call; and a trace
can contain a delete call only for the confirmed outcome, so `onDelete` is
never reached except through confirmation. -/
theorem deleteSelectedAction_spec (rows : List FlattenedSurveyPoint)
    (selection : List String) (ns : List (Fin rows.length))
    (hparse : selection.map parseIntJS = ns.map (fun n => some n.val))
    (hne : selection ≠ []) :
    deleteSelectedAction rows selection DialogOutcome.confirmed =
      some [CollabCall.deleteCall
        ((ns.map rows.get).map (fun row => row.id))] ∧
    deleteSelectedAction rows selection DialogOutcome.cancelled = some [] ∧
    (∀ (outcome : DialogOutcome) (tr : List CollabCall) (ids : List String),
      deleteSelectedAction rows selection outcome = some tr →
      CollabCall.deleteCall ids ∈ tr →
      outcome = DialogOutcome.confirmed) := by
  have hlen : (selection.length == 0) = false := by
    cases selection with
    | nil => exact absurd rfl hne
    | cons a l => rfl
  have hsel := mapMo_lookup_eq rows (fun row => row.id) selection ns hparse
  refine ⟨?_, ?_, ?_⟩
  · simp only [deleteSelectedAction, runDialog, hlen, Bool.false_eq_true,
      if_false, handleDelete, selectedIds]
    rw [hsel]
    rfl
  · simp only [deleteSelectedAction, runDialog, hlen, Bool.false_eq_true,
      if_false]
  · intro outcome tr ids htr hmemtr
    cases outcome with
    | confirmed => rfl
    | cancelled =>
      simp only [deleteSelectedAction, runDialog, hlen, Bool.false_eq_true,
        if_false, Option.some.injEq] at htr
      subst htr
      cases hmemtr

/-- Witness for C2: selection {row 0, row 2} of three rows; confirming calls
`onDelete` once with both identifiers, cancelling calls nothing. -/
theorem deleteSelectedAction_spec_witness :
    deleteSelectedAction [mkRow "A" false, mkRow "B" false, mkRow "C" false]
        ["0", "2"] DialogOutcome.confirmed =
      some [CollabCall.deleteCall ["A", "C"]] ∧
    deleteSelectedAction [mkRow "A" false, mkRow "B" false, mkRow "C" false]
        ["0", "2"] DialogOutcome.cancelled = some [] := by
  have h := deleteSelectedAction_spec
      [mkRow "A" false, mkRow "B" false, mkRow "C" false] ["0", "2"]
      [⟨0, by decide⟩, ⟨2, by decide⟩] (by decide) (by decide)
  refine ⟨?_, h.2.1⟩
  rw [h.1]
  rfl

/-- C8: with an empty selection both bulk actions are disabled affordances:
for every dialog outcome the delete action yields the empty trace, and the
toggle-disable button press yields the empty trace — in particular the
result is `some []` (no collaborator call), never `none` (no error). -/
theorem emptySelection_bulk_actions_disabled (rows : List FlattenedSurveyPoint)
    (outcome : DialogOutcome) :
    deleteSelectedAction rows [] outcome = some [] ∧
    pressToggleDisableButton rows [] = some [] :=
  ⟨rfl, rfl⟩

/-- Every element-wise defined `Option`-map over a list whose entries all
succeed is itself defined, with the same length. -/
theorem mapMo_total {α β : Type} (f : α → Option β) :
    ∀ (l : List α), (∀ x ∈ l, (f x).isSome = true) →
      ∃ bs, mapMo f l = some bs ∧ bs.length = l.length
  | [], _ => ⟨[], rfl, rfl⟩
  | a :: l, h => by
      rcases Option.isSome_iff_exists.mp (h a (List.mem_cons_self a l))
        with ⟨b, hb⟩
      rcases mapMo_total f l (fun x hx => h x (List.mem_cons_of_mem a hx))
        with ⟨bs, hbs, hlen⟩
      exact ⟨b :: bs, by simp [mapMo, hb, hbs], by simp [hlen]⟩

/-- C9: selection keys are parsed with `parseInt` and used to index the
flattened array. When every key of the selection parses to an index strictly
below the array length, identifier resolution is total — the undefined
dereference is unreachable and `handleDelete` resolves the whole selection —
while a key `k₀` violating the precondition (parsing out of bounds, or not
at all) yields no row. -/
theorem selection_key_resolution (rows : List FlattenedSurveyPoint)
    (selection : List String) (k₀ : String)
    (h : ∀ k ∈ selection, ∃ n, parseIntJS k = some n ∧ n < rows.length)
    (h₀ : ∀ n, parseIntJS k₀ = some n → rows.length ≤ n) :
    (∃ ids, selectedIds rows selection = some ids ∧
      ids.length = selection.length ∧
      handleDelete rows selection = some [CollabCall.deleteCall ids]) ∧
    lookupRow rows k₀ = none := by
  constructor
  · have htot : ∀ k ∈ selection,
        ((lookupRow rows k).map (fun row => row.id)).isSome = true := by
      intro k hk
      rcases h k hk with ⟨n, hkn, hlt⟩
      have hlk : lookupRow rows k = some (rows.get ⟨n, hlt⟩) := by
        simp only [lookupRow, hkn]
        exact List.get?_eq_get hlt
      simp [hlk]
    rcases mapMo_total _ selection htot with ⟨ids, hids, hlen⟩
    exact ⟨ids, hids, hlen, by simp [handleDelete, selectedIds, hids]⟩
  · cases hpk : parseIntJS k₀ with
    | none => simp [lookupRow, hpk]
    | some n =>
      have hge := h₀ n hpk
      simp only [lookupRow, hpk]
      exact List.get?_eq_none.mpr hge

/-- Witness for C9: the key "0" resolves in a one-row table; the key "5"
parses to an out-of-bounds index and yields no row. -/
theorem selection_key_resolution_witness :
    (∃ ids, selectedIds [mkRow "A" false] ["0"] = some ids ∧
      ids.length = (["0"] : List String).length ∧
      handleDelete [mkRow "A" false] ["0"] =
        some [CollabCall.deleteCall ids]) ∧
    lookupRow [mkRow "A" false] "5" = none := by
  refine selection_key_resolution [mkRow "A" false] ["0"] "5" ?_ ?_
  · intro k hk
    rcases List.mem_singleton.mp hk with rfl
    exact ⟨0, by decide, by decide⟩
  · intro n hn
    rw [show parseIntJS "5" = some 5 from by decide] at hn
    cases hn
    decide

end PointsTable
